import Mathlib

/-!
Shallow embedding of the NotifyBuddy reminder extension core:
the storage layer (`shared/storage.js`), the alarm-name codec and
alarm-fire handler (`background/service-worker.js`), the alarm
scheduling utilities (`shared/alarms.js`) and the dashboard undo flow
(options page script).

JavaScript strings are modelled as `List Char`; JavaScript values that
may be either a number or a string (reminder fields fed to `Number(...)`)
are modelled by `JVal`, with `none : Option Int` standing for `NaN`
where a numeric conversion can fail.  Machine numbers are modelled as
unbounded `Int` (all times in the program are integer epoch
milliseconds).  Fallible operations return `Except`.
-/

/-- JavaScript strings, modelled as lists of characters. -/
abbrev Str := List Char

/-- Characters removed by JavaScript `String.prototype.trim` (the common
whitespace characters: space, tab, LF, VT, FF, CR, NBSP). -/
def jsWhitespace (c : Char) : Bool :=
  c == ' ' || c == '\t' || c == '\n' || c == '\r' ||
  c.toNat == 11 || c.toNat == 12 || c.toNat == 160

/-- JavaScript `s.trimStart()` / the leading-whitespace skip of `parseInt`. -/
def jsTrimLeft (s : Str) : Str := s.dropWhile jsWhitespace

/-- JavaScript `s.trim()`: drop whitespace from both ends. -/
def jsTrim (s : Str) : Str :=
  ((s.dropWhile jsWhitespace).reverse.dropWhile jsWhitespace).reverse

/-- `p` is a prefix of `s` (JavaScript `s.startsWith(p)`). -/
def strStarts (p s : Str) : Bool := s.take p.length == p

/-- JavaScript `s.lastIndexOf(c)`: index of the last occurrence of the
character `c`, `none` when absent (the source's `-1`). -/
def lastIndexOfChar (c : Char) (s : Str) : Option Nat :=
  match s.reverse.findIdx? (· == c) with
  | some j => some (s.length - 1 - j)
  | none => none

/-- Numeric value of the longest digit prefix of `s`; `none` when `s`
does not start with a decimal digit (JavaScript `parseInt` `NaN` case). -/
def digitsVal (s : Str) : Option Nat :=
  match s.takeWhile (·.isDigit) with
  | [] => none
  | ds => some (ds.foldl (fun a c => a * 10 + (c.toNat - 48)) 0)

/-- JavaScript `parseInt(s, 10)`: skip leading whitespace, accept an
optional sign, then read the longest decimal-digit prefix; `none` is `NaN`. -/
def parseInt10 (s : Str) : Option Int :=
  match jsTrimLeft s with
  | '-' :: rest => (digitsVal rest).map (fun n => -(n : Int))
  | '+' :: rest => (digitsVal rest).map (fun n => (n : Int))
  | t => (digitsVal t).map (fun n => (n : Int))

/-- A dynamically-typed JavaScript field value: a number or a string.
(The fields the program feeds to `Number(...)` only ever hold integral
numbers or strings in this system.) -/
inductive JVal where
  | num : Int → JVal
  | str : Str → JVal
deriving DecidableEq

/-- JavaScript `Number(v)` on a `JVal`, restricted to the integer
fragment used by the program: a number converts to itself, a string is
trimmed and must then be an optionally-signed run of decimal digits
(the empty string converts to `0`); `none` is `NaN`. -/
def toNumber : JVal → Option Int
  | .num n => some n
  | .str s =>
    match jsTrim s with
    | [] => some 0
    | '-' :: rest => if rest ≠ [] && rest.all (·.isDigit) then
        (digitsVal rest).map (fun n => -(n : Int)) else none
    | '+' :: rest => if rest ≠ [] && rest.all (·.isDigit) then
        (digitsVal rest).map (fun n => (n : Int)) else none
    | t => if t.all (·.isDigit) then (digitsVal t).map (fun n => (n : Int)) else none

/-- JavaScript falsiness of a `JVal` (`0` and `""` are falsy). -/
def jvalFalsy : JVal → Bool
  | .num n => n == 0
  | .str s => s.isEmpty

/-- Decimal string of an integer (JavaScript template-string coercion). -/
def intToStr (n : Int) : Str :=
  if n < 0 then '-' :: Nat.toDigits 10 (-n).toNat else Nat.toDigits 10 n.toNat

/-- String coercion of a `JVal` in a template literal. -/
def jvalToString : JVal → Str
  | .num n => intToStr n
  | .str s => s

/-- A reminder record.  `status` is `none` when the property is absent
(JavaScript `undefined`); `extra` carries any further properties (such
as `alarmName`) that the storage layer passes through unchanged. -/
structure Reminder where
  id : Str
  text : Str
  scheduledTime : JVal
  createdAt : JVal
  status : Option Str
  extra : List (Str × JVal)
deriving DecidableEq

/-- JavaScript `Array.prototype.findIndex` returning `none` for `-1`. -/
def findIndexJS (p : α → Bool) : List α → Option Nat
  | [] => none
  | a :: t => if p a then some 0 else (findIndexJS p t).map (· + 1)

/-- Result of `parseAlarmName`: the extracted reminder id and time. -/
structure AlarmParse where
  reminderId : Str
  scheduledTime : Int
deriving DecidableEq

namespace Background

/-- `parseAlarmName` from `background/service-worker.js`: requires the
`"reminder-"` start, takes everything after the last `-` as the time
(via `parseInt`, which must be positive), and `substring(8, lastDash)`
trimmed as the reminder id, which must be non-empty. -/
def parseAlarmName (alarmName : Str) : Option AlarmParse :=
  if alarmName.isEmpty || !strStarts "reminder-".data alarmName then
    none
  else
    match lastIndexOfChar '-' alarmName with
    | none => none
    | some lastDashIndex =>
      if lastDashIndex ≤ 8 then none
      else
        let timeString := alarmName.drop (lastDashIndex + 1)
        match parseInt10 timeString with
        | none => none
        | some scheduledTime =>
          if scheduledTime ≤ 0 then none
          else
            let reminderId := jsTrim ((alarmName.take lastDashIndex).drop 8)
            if reminderId.isEmpty then none
            else some ⟨reminderId, scheduledTime⟩

end Background

/-- Validation errors thrown by `validateReminder` in `shared/storage.js`,
one constructor per `throw new Error(...)` site. -/
inductive VError where
  | invalidId
  | emptyText
  | notFuture
  | badStatus : Str → VError
deriving DecidableEq

deriving instance DecidableEq for Except

/-- The three legal status strings of `shared/storage.js`. -/
def validStatuses : List Str :=
  ["active".data, "completed".data, "dismissed".data]

namespace Storage

/-- `getReminder` from `shared/storage.js`: `null` for a falsy id, else
the first stored record whose id matches (`String(r.id) === String(id)`). -/
def getReminder (id : Str) (store : List Reminder) : Option Reminder :=
  if id.isEmpty then none
  else store.find? (fun r => r.id == id)

/-- `normalizeReminder` from `shared/storage.js`:
`scheduledTime: Number(..) || 0`, `createdAt: Number(..) || Date.now()`,
`status: status || "active"` (so `NaN`/`0`/missing fall back). -/
def normalizeReminder (now : Int) (r : Reminder) : Reminder :=
  { r with
    scheduledTime := .num (match toNumber r.scheduledTime with
      | some v => v
      | none => 0)
    createdAt := .num (match toNumber r.createdAt with
      | some v => if v == 0 then now else v
      | none => now)
    status := some (match r.status with
      | some s => if s.isEmpty then "active".data else s
      | none => "active".data) }

/-- `validateReminder` from `shared/storage.js`: non-empty string id,
non-empty trimmed text, `Number(scheduledTime)` truthy and strictly
after `Date.now()`, and a truthy status must be one of the three enum
values.  (`typeof` checks hold by typing in the model.) -/
def validateReminder (now : Int) (r : Reminder) : Except VError Unit :=
  if r.id.isEmpty then .error .invalidId
  else if r.text.isEmpty || (jsTrim r.text).isEmpty then .error .emptyText
  else
    match toNumber r.scheduledTime with
    | none => .error .notFuture
    | some v =>
      if v == 0 || v ≤ now then .error .notFuture
      else
        match r.status with
        | some s =>
          if !s.isEmpty && !(validStatuses.contains s) then .error (.badStatus s)
          else .ok ()
        | none => .ok ()

/-- `saveReminder` from `shared/storage.js`: validate, normalize, then
upsert by id (replace the record at the first matching index, else
append) and rewrite the collection; a validation error is rethrown
before any write. -/
def saveReminder (now : Int) (r : Reminder) (store : List Reminder) :
    Except VError (List Reminder) :=
  match validateReminder now r with
  | .error e => .error e
  | .ok _ =>
    let n := normalizeReminder now r
    match findIndexJS (fun x => x.id == n.id) store with
    | some i => .ok (store.set i n)
    | none => .ok (store ++ [n])

/-- `deleteReminder` from `shared/storage.js`: no-op on a falsy id, else
keep every record whose id differs. -/
def deleteReminder (id : Str) (store : List Reminder) : List Reminder :=
  if id.isEmpty then store
  else store.filter (fun r => r.id != id)

/-- `updateReminderStatus` from `shared/storage.js`: silently return on a
falsy argument, reject a status outside the enum, silently return when
the id is absent, and otherwise re-save the fetched record with the new
status (which re-validates it). -/
def updateReminderStatus (now : Int) (id status : Str)
    (store : List Reminder) : Except VError (List Reminder) :=
  if id.isEmpty || status.isEmpty then .ok store
  else if !(validStatuses.contains status) then .error (.badStatus status)
  else
    match getReminder id store with
    | none => .ok store
    | some r => saveReminder now { r with status := some status } store

end Storage

/-- The collection that results from a JavaScript call that may throw:
on success the new collection, on a thrown error the old one (the
sources throw before any `chrome.storage.local.set`). -/
def resultStore (res : Except VError (List Reminder))
    (old : List Reminder) : List Reminder :=
  match res with
  | .ok s => s
  | .error _ => old

namespace Background

/-- `updateReminderStatus` from `background/service-worker.js`: find the
record by id, set its status directly and write it back at its index —
no validation, and errors are caught without rethrowing. -/
def updateReminderStatus (id status : Str) (store : List Reminder) :
    List Reminder :=
  match store.find? (fun r => r.id == id) with
  | none => store
  | some r =>
    let r2 := { r with status := some status }
    match findIndexJS (fun x => x.id == id) store with
    | some i => store.set i r2
    | none => store

/-- Is the record's `Number(scheduledTime)` within 1000 ms of the alarm
time?  (`Math.abs(NaN - t) < 1000` is false.) -/
def withinTolerance (r : Reminder) (alarmTime : Int) : Bool :=
  match toNumber r.scheduledTime with
  | some rt => (rt - alarmTime).natAbs < 1000
  | none => false

/-- `findReminder` from `background/service-worker.js`: exact id match
first, else the first record whose scheduled time is within 1 second. -/
def findReminder (store : List Reminder) (reminderId : Str)
    (scheduledTime : Int) : Option Reminder :=
  match store.find? (fun r => r.id == reminderId) with
  | some r => some r
  | none => store.find? (fun r => withinTolerance r scheduledTime)

/-- The `chrome.alarms.onAlarm` listener of
`background/service-worker.js`: filter foreign names, parse, bail out on
an empty collection or no match or a non-active match, else show the
notification and mark the record completed.  Returns the reminder whose
notification was displayed (if any) and the resulting collection. -/
def handleAlarm (alarmName : Str) (store : List Reminder) :
    Option Reminder × List Reminder :=
  if alarmName.isEmpty || !strStarts "reminder-".data alarmName then
    (none, store)
  else
    match parseAlarmName alarmName with
    | none => (none, store)
    | some p =>
      if store.isEmpty then (none, store)
      else
        match findReminder store p.reminderId p.scheduledTime with
        | none => (none, store)
        | some r =>
          if r.status != some "active".data then (none, store)
          else (some r, updateReminderStatus r.id "completed".data store)

end Background

/-- The set of registered one-shot alarms: name paired with the absolute
fire time (`chrome.alarms` state). -/
abbrev AlarmSet := List (Str × Int)

namespace Alarms

/-- `createAlarmName` from `shared/alarms.js`:
the template literal `reminder-id-scheduledTime`. -/
def createAlarmName (r : Reminder) : Str :=
  "reminder-".data ++ r.id ++ "-".data ++ jvalToString r.scheduledTime

/-- `chrome.alarms.create(name, when)`: registering a name that already
exists replaces it. -/
def createAlarm (name : Str) (whenMs : Int) (alarms : AlarmSet) : AlarmSet :=
  (alarms.filter (fun a => a.1 != name)) ++ [(name, whenMs)]

/-- `scheduleReminder` from `shared/alarms.js`: reject a falsy id or
scheduled time, reject a scheduled time not after `now`, else register
an alarm under the derived name at that absolute time.  (A `NaN`
scheduled time is unrepresentable after the falsiness guard in this
model's integer fragment, so `Number(scheduledTime)` is read with a
defaulted 0 that the guard makes unreachable.) -/
def scheduleReminder (now : Int) (r : Reminder) (alarms : AlarmSet) :
    Except Str AlarmSet :=
  if r.id.isEmpty || jvalFalsy r.scheduledTime then
    .error "Invalid reminder object".data
  else
    let alarmName := createAlarmName r
    let scheduledTime := (toNumber r.scheduledTime).getD 0
    if toNumber r.scheduledTime != none && scheduledTime ≤ now then
      .error "Cannot schedule alarm for past time".data
    else .ok (createAlarm alarmName scheduledTime alarms)

end Alarms

/-- Set (or overwrite) a dynamic property on a record's pass-through
field, as a JavaScript property assignment does. -/
def setExtra (k : Str) (v : JVal) (r : Reminder) : Reminder :=
  { r with extra := (r.extra.filter (fun p => p.1 != k)) ++ [(k, v)] }

namespace Options

/-- The options-page state that the undo flow touches: the stored
collection, the registered alarms, and the remembered
`lastDismissedReminder` copy. -/
structure OptionsState where
  store : List Reminder
  alarms : AlarmSet
  lastDismissedReminder : Option Reminder
deriving DecidableEq

/-- `handleUndoDismiss` from the options page script: if a dismissed
record is remembered, set its stored status back to `active` through the
storage layer's `updateReminderStatus`; when that throws, the `catch`
leaves everything as it was.  Otherwise, when the remembered scheduled
time is still in the future, refresh the copy's `alarmName` property and
reschedule its alarm, then clear the remembered record. -/
def handleUndoDismiss (now : Int) (st : OptionsState) : OptionsState :=
  match st.lastDismissedReminder with
  | none => st
  | some reminder =>
    match Storage.updateReminderStatus now reminder.id "active".data st.store with
    | .error _ => st
    | .ok store2 =>
      if (match toNumber reminder.scheduledTime with
          | some v => decide (now < v)
          | none => false) then
        let r2 := setExtra "alarmName".data
          (.str (Alarms.createAlarmName reminder)) reminder
        match Alarms.scheduleReminder now r2 st.alarms with
        | .error _ => { st with store := store2 }
        | .ok alarms2 =>
          { store := store2, alarms := alarms2, lastDismissedReminder := none }
      else
        { store := store2, alarms := st.alarms, lastDismissedReminder := none }

end Options

/-- The storage invariant of the spec: at most one record per id. -/
def uniqueIds (store : List Reminder) : Prop := (store.map Reminder.id).Nodup

instance : DecidablePred uniqueIds := fun store =>
  inferInstanceAs (Decidable (store.map Reminder.id).Nodup)

theorem findIndexJS_eq_none {α} {p : α → Bool} {l : List α}
    (h : findIndexJS p l = none) : ∀ x ∈ l, p x = false := by
  induction l with
  | nil => intro x hx; cases hx
  | cons a t ih =>
    intro x hx
    cases hpa : p a with
    | true => simp [findIndexJS, hpa] at h
    | false =>
      simp only [findIndexJS, hpa, Bool.false_eq_true, if_false,
        Option.map_eq_none'] at h
      rcases List.mem_cons.mp hx with rfl | hx
      · exact hpa
      · exact ih h x hx

theorem findIndexJS_find? {α} {p : α → Bool} {l : List α} {i : Nat}
    (h : findIndexJS p l = some i) :
    ∃ x, l.get? i = some x ∧ p x = true ∧ l.find? p = some x := by
  induction l generalizing i with
  | nil => cases h
  | cons a t ih =>
    by_cases hp : p a
    · simp only [findIndexJS, hp, if_true, Option.some.injEq] at h
      subst h
      exact ⟨a, rfl, hp, by simp [List.find?, hp]⟩
    · simp only [findIndexJS, hp, if_false] at h
      rcases Option.map_eq_some'.mp h with ⟨j, hj, rfl⟩
      rcases ih hj with ⟨x, hget, hx, hfind⟩
      exact ⟨x, hget, hx, by simp [List.find?, hp, hfind]⟩

theorem find?_set_self {α} {p : α → Bool} {l : List α} {i : Nat} {n : α}
    (hn : p n = true) (h : findIndexJS p l = some i) :
    (l.set i n).find? p = some n := by
  induction l generalizing i with
  | nil => cases h
  | cons a t ih =>
    by_cases hp : p a
    · simp only [findIndexJS, hp, if_true, Option.some.injEq] at h
      subst h
      simp [List.set, List.find?, hn]
    · simp only [findIndexJS, hp, if_false] at h
      rcases Option.map_eq_some'.mp h with ⟨j, hj, rfl⟩
      simpa [List.set, List.find?, hp] using ih hj

theorem find?_append_single {α} {p : α → Bool} {l : List α} {n : α}
    (h : l.find? p = none) (hn : p n = true) :
    (l ++ [n]).find? p = some n := by
  induction l with
  | nil => simp [List.find?, hn]
  | cons a t ih =>
    cases hpa : p a with
    | true => simp [List.find?, hpa] at h
    | false =>
      simp only [List.find?, hpa] at h
      simpa [List.find?, hpa] using ih h

theorem set_of_get?_eq {α} {l : List α} {i : Nat} {a : α}
    (h : l.get? i = some a) : l.set i a = l := by
  induction l generalizing i with
  | nil => cases h
  | cons b t ih =>
    cases i with
    | zero =>
      rw [List.get?] at h
      injection h with h
      subst h
      rfl
    | succ j =>
      rw [List.get?] at h
      rw [List.set]
      rw [ih h]

theorem nodup_find_self {store : List Reminder} {i : Nat} {r : Reminder}
    (hu : uniqueIds store) (hget : store.get? i = some r) :
    store.find? (fun x => x.id == r.id) = some r ∧
      findIndexJS (fun x => x.id == r.id) store = some i := by
  induction store generalizing i with
  | nil => cases hget
  | cons a t ih =>
    unfold uniqueIds at hu
    rw [List.map_cons, List.nodup_cons] at hu
    cases i with
    | zero =>
      rw [List.get?] at hget
      injection hget with hget
      subst hget
      exact ⟨by simp [List.find?], by simp [findIndexJS]⟩
    | succ j =>
      rw [List.get?] at hget
      have hmem : r ∈ t := List.get?_mem hget
      have hne : (a.id == r.id) = false := by
        apply beq_eq_false_iff_ne.mpr
        intro hcontra
        exact hu.1 (hcontra ▸ List.mem_map_of_mem Reminder.id hmem)
      rcases ih hu.2 hget with ⟨h1, h2⟩
      refine ⟨?_, ?_⟩
      · simpa [List.find?, hne] using h1
      · simp [findIndexJS, hne, h2]

theorem validate_ok_id {now : Int} {r : Reminder}
    (h : Storage.validateReminder now r = .ok ()) : r.id.isEmpty = false := by
  cases hc : r.id.isEmpty with
  | false => rfl
  | true => simp [Storage.validateReminder, hc] at h

theorem saveReminder_ok (now : Int) (r : Reminder) (store : List Reminder)
    (h : Storage.validateReminder now r = Except.ok ()) :
    ∃ s2, Storage.saveReminder now r store = .ok s2 ∧
      Storage.getReminder r.id s2 = some (Storage.normalizeReminder now r) := by
  have hidne : r.id.isEmpty = false := validate_ok_id h
  cases hidx : findIndexJS
      (fun x => x.id == (Storage.normalizeReminder now r).id) store with
  | some i =>
    refine ⟨store.set i (Storage.normalizeReminder now r), ?_, ?_⟩
    · simp [Storage.saveReminder, h, hidx]
    · simp only [Storage.getReminder, hidne, Bool.false_eq_true, if_false]
      exact find?_set_self (by simp [Storage.normalizeReminder]) hidx
  | none =>
    refine ⟨store ++ [Storage.normalizeReminder now r], ?_, ?_⟩
    · simp [Storage.saveReminder, h, hidx]
    · simp only [Storage.getReminder, hidne, Bool.false_eq_true, if_false]
      apply find?_append_single
      · apply List.find?_eq_none.mpr
        intro x hx
        simpa using findIndexJS_eq_none hidx x hx
      · simp [Storage.normalizeReminder]

theorem uniqueIds_save {now : Int} {r : Reminder} {store s2 : List Reminder}
    (hu : uniqueIds store) (h : Storage.saveReminder now r store = .ok s2) :
    uniqueIds s2 := by
  cases hv : Storage.validateReminder now r with
  | error e => simp [Storage.saveReminder, hv] at h
  | ok u =>
    cases u
    cases hidx : findIndexJS
        (fun x => x.id == (Storage.normalizeReminder now r).id) store with
    | some i =>
      simp only [Storage.saveReminder, hv, hidx, Except.ok.injEq] at h
      subst h
      rcases findIndexJS_find? hidx with ⟨x, hget, hpx, _⟩
      have hxid : x.id = (Storage.normalizeReminder now r).id := by
        simpa using hpx
      unfold uniqueIds
      rw [List.map_set]
      rw [set_of_get?_eq (by rw [List.get?_map, hget, Option.map_some', hxid])]
      exact hu
    | none =>
      simp only [Storage.saveReminder, hv, hidx, Except.ok.injEq] at h
      subst h
      unfold uniqueIds
      rw [List.map_append, List.nodup_append]
      refine ⟨hu, List.nodup_singleton _, ?_⟩
      intro a ha hb
      rcases List.mem_map.mp ha with ⟨x, hx, hxid⟩
      have hfalse := findIndexJS_eq_none hidx x hx
      rw [beq_eq_false_iff_ne] at hfalse
      exact hfalse (by rw [hxid, List.mem_singleton.mp hb])

theorem update_ok_cases {now : Int} {id status : Str} {store s2 : List Reminder}
    (h : Storage.updateReminderStatus now id status store = .ok s2) :
    s2 = store ∨ ∃ r2, Storage.saveReminder now r2 store = .ok s2 := by
  unfold Storage.updateReminderStatus at h
  split at h
  · injection h with h
    exact Or.inl h.symm
  · split at h
    · cases h
    · split at h
      · injection h with h
        exact Or.inl h.symm
      · exact Or.inr ⟨_, h⟩

theorem uniqueIds_delete {id : Str} {store : List Reminder}
    (hu : uniqueIds store) : uniqueIds (Storage.deleteReminder id store) := by
  unfold Storage.deleteReminder
  split
  · exact hu
  · exact hu.sublist ((List.filter_sublist store).map Reminder.id)

theorem parseAlarmName_checks {name : Str} {p : AlarmParse}
    (h : Background.parseAlarmName name = some p) :
    (name.isEmpty || !strStarts "reminder-".data name) = false := by
  cases hc : (name.isEmpty || !strStarts "reminder-".data name) with
  | false => rfl
  | true => simp [Background.parseAlarmName, hc] at h

theorem findReminder_isEmpty_false {store : List Reminder} {rid : Str}
    {t : Int} {r : Reminder}
    (h : Background.findReminder store rid t = some r) :
    store.isEmpty = false := by
  cases store with
  | nil => simp [Background.findReminder, List.find?] at h
  | cons a s => rfl

/-- C1: the trigger key built by `createAlarmName` as
`"reminder-" + id + "-" + t` does *not* round-trip: `parseAlarmName`
extracts the id with `substring(8, lastDash)`, but the `"reminder-"`
prefix is 9 characters long, so the parsed reminderId keeps the
separating hyphen (`"-abc"` instead of `"abc"`); consequently the
handler's exact-id match can never succeed for keys built by the
scheduler.  Evaluation at the failing input id = `"abc"`, t = 5. -/
theorem parseAlarmName_keeps_hyphen :
    Background.parseAlarmName
        ("reminder-".data ++ "abc".data ++ "-".data ++ intToStr 5) =
      some ⟨"-abc".data, 5⟩ ∧
    ("-abc".data : Str) ≠ "abc".data := by
  refine ⟨by decide, by decide⟩

/-- C10: a key whose last hyphen-delimited segment `"123abc"` is not an
integer still parses: `parseInt` takes the leading digits, so the parse
succeeds with scheduledTime 123. -/
theorem parseAlarmName_accepts_digit_head :
    ("123abc".data.all (·.isDigit)) = false ∧
    parseInt10 "123abc".data = some 123 ∧
    Background.parseAlarmName "reminder-task-123abc".data =
      some ⟨"-task".data, 123⟩ := by
  refine ⟨by decide, by decide, by decide⟩

/-- C3: undo of a dismissed reminder whose scheduledTime has already
passed does *not* restore the status to `active`: the options page
routes the restore through the storage layer's `updateReminderStatus`,
whose re-validation rejects a past scheduledTime, so the whole undo
aborts in the `catch` and the record stays `dismissed` (no trigger is
registered either).  Evaluation at the failing input: scheduledTime 5,
now 10. -/
theorem undoDismiss_pastTime_fails :
    Options.handleUndoDismiss 10
        ⟨[⟨"a".data, "x".data, .num 5, .num 1, some "dismissed".data, []⟩],
          [], some ⟨"a".data, "x".data, .num 5, .num 1, some "dismissed".data, []⟩⟩ =
      ⟨[⟨"a".data, "x".data, .num 5, .num 1, some "dismissed".data, []⟩],
        [], some ⟨"a".data, "x".data, .num 5, .num 1, some "dismissed".data, []⟩⟩ ∧
    Storage.updateReminderStatus 10 "a".data "active".data
        [⟨"a".data, "x".data, .num 5, .num 1, some "dismissed".data, []⟩] =
      .error .notFuture := by
  refine ⟨by decide, by decide⟩

/-- C4: when an alarm fires and the matched record's status is already
`completed` or `dismissed`, the handler displays nothing and leaves the
stored collection unchanged. -/
theorem alarmFire_nonActive_noop (name : Str) (store : List Reminder)
    (p : AlarmParse) (r : Reminder)
    (hp : Background.parseAlarmName name = some p)
    (hf : Background.findReminder store p.reminderId p.scheduledTime = some r)
    (hs : r.status = some "completed".data ∨ r.status = some "dismissed".data) :
    Background.handleAlarm name store = (none, store) := by
  have hchecks := parseAlarmName_checks hp
  have hne := findReminder_isEmpty_false hf
  have hnact : (r.status != some "active".data) = true := by
    rcases hs with hs | hs <;> rw [hs] <;> decide
  simp [Background.handleAlarm, hchecks, hp, hne, hf, hnact]

/-- Witness for `alarmFire_nonActive_noop` at a concrete completed
record matched by time proximity. -/
theorem alarmFire_nonActive_noop_witness :
    Background.parseAlarmName "reminder-a-1000".data = some ⟨"-a".data, 1000⟩ ∧
    Background.findReminder
        [⟨"a".data, "x".data, .num 1000, .num 1, some "completed".data, []⟩]
        "-a".data 1000 =
      some ⟨"a".data, "x".data, .num 1000, .num 1, some "completed".data, []⟩ ∧
    Background.handleAlarm "reminder-a-1000".data
        [⟨"a".data, "x".data, .num 1000, .num 1, some "completed".data, []⟩] =
      (none, [⟨"a".data, "x".data, .num 1000, .num 1, some "completed".data, []⟩]) := by
  refine ⟨by decide, by decide, ?_⟩
  exact alarmFire_nonActive_noop _ _ ⟨"-a".data, 1000⟩
    ⟨"a".data, "x".data, .num 1000, .num 1, some "completed".data, []⟩
    (by decide) (by decide) (Or.inl (by decide))

/-- C2 counterexample: `"a"` is present in the store (status `active`,
scheduledTime 5) and `"completed"` is a legal status, yet
`updateReminderStatus` at now = 10 raises `notFuture` instead of
succeeding, because it re-saves through the validating `saveReminder`. -/
theorem setStatus_pastTime_raises :
    Storage.getReminder "a".data
        [⟨"a".data, "x".data, .num 5, .num 1, some "active".data, []⟩] =
      some ⟨"a".data, "x".data, .num 5, .num 1, some "active".data, []⟩ ∧
    "completed".data ∈ validStatuses ∧
    Storage.updateReminderStatus 10 "a".data "completed".data
        [⟨"a".data, "x".data, .num 5, .num 1, some "active".data, []⟩] =
      .error .notFuture := by
  refine ⟨by decide, by decide, by decide⟩

/-- C2 (amended): for a status in the enum, `updateReminderStatus`
silently leaves the store unchanged when the id is absent, and succeeds
— leaving the record with the requested status — when the id is present
*and the updated record still passes `save`'s validation at the current
time* (in particular its scheduledTime is still in the future). -/
theorem updateReminderStatus_spec (now : Int) (id status : Str)
    (store : List Reminder) (hstat : status ∈ validStatuses) :
    (Storage.getReminder id store = none →
      Storage.updateReminderStatus now id status store = .ok store) ∧
    (∀ r, Storage.getReminder id store = some r →
      Storage.validateReminder now { r with status := some status } = .ok () →
      ∃ s2, Storage.updateReminderStatus now id status store = .ok s2 ∧
        ∃ r2, Storage.getReminder id s2 = some r2 ∧ r2.status = some status) := by
  have hstat3 : status = "active".data ∨ status = "completed".data ∨
      status = "dismissed".data := by simpa [validStatuses] using hstat
  have hstatne : status.isEmpty = false := by
    rcases hstat3 with rfl | rfl | rfl <;> rfl
  have hcont : validStatuses.contains status = true := by
    rcases hstat3 with rfl | rfl | rfl <;> decide
  constructor
  · intro habs
    cases hid : id.isEmpty with
    | true => simp [Storage.updateReminderStatus, hid]
    | false => simp [Storage.updateReminderStatus, hid, hstatne, hcont, hstat, habs]
  · intro r hget hval
    cases hid : id.isEmpty with
    | true => simp [Storage.getReminder, hid] at hget
    | false =>
      have hfind : store.find? (fun x => x.id == id) = some r := by
        simpa [Storage.getReminder, hid] using hget
      have hrid : r.id = id := by simpa using List.find?_some hfind
      rcases saveReminder_ok now { r with status := some status } store hval
        with ⟨s2, hsave, hget2⟩
      refine ⟨s2, ?_, ?_⟩
      · simp [Storage.updateReminderStatus, hid, hstatne, hcont, hstat, hget, hsave]
      · refine ⟨Storage.normalizeReminder now { r with status := some status },
          ?_, ?_⟩
        · rw [← hrid]
          exact hget2
        · simp [Storage.normalizeReminder, hstatne]

/-- Witness for `updateReminderStatus_spec`: a store holding one active
record scheduled at 100, updated to `completed` at now = 10. -/
theorem updateReminderStatus_spec_witness :
    "completed".data ∈ validStatuses ∧
    ((Storage.getReminder "a".data
        [⟨"a".data, "x".data, .num 100, .num 1, some "active".data, []⟩] = none →
      Storage.updateReminderStatus 10 "a".data "completed".data
          [⟨"a".data, "x".data, .num 100, .num 1, some "active".data, []⟩] =
        .ok [⟨"a".data, "x".data, .num 100, .num 1, some "active".data, []⟩]) ∧
    (∀ r, Storage.getReminder "a".data
        [⟨"a".data, "x".data, .num 100, .num 1, some "active".data, []⟩] = some r →
      Storage.validateReminder 10 { r with status := some "completed".data } =
        .ok () →
      ∃ s2, Storage.updateReminderStatus 10 "a".data "completed".data
          [⟨"a".data, "x".data, .num 100, .num 1, some "active".data, []⟩] =
        .ok s2 ∧
        ∃ r2, Storage.getReminder "a".data s2 = some r2 ∧
          r2.status = some "completed".data)) :=
  ⟨by decide, updateReminderStatus_spec 10 "a".data "completed".data
    [⟨"a".data, "x".data, .num 100, .num 1, some "active".data, []⟩] (by decide)⟩

/-- C6: `save` raises on a record whose numeric scheduledTime is not
after the current time or whose text trims to empty, and the stored
collection is exactly what it was (the throw happens before any write). -/
theorem saveReminder_rejects (now : Int) (r : Reminder) (store : List Reminder)
    (h : (∃ v, toNumber r.scheduledTime = some v ∧ v ≤ now) ∨
      jsTrim r.text = []) :
    (∃ e, Storage.saveReminder now r store = .error e) ∧
    resultStore (Storage.saveReminder now r store) store = store := by
  have hval : ∃ e, Storage.validateReminder now r = .error e := by
    unfold Storage.validateReminder
    cases hid : r.id.isEmpty with
    | true => exact ⟨.invalidId, by simp [hid]⟩
    | false =>
      cases htext : (r.text.isEmpty || (jsTrim r.text).isEmpty) with
      | true => exact ⟨.emptyText, by simp [hid, htext]⟩
      | false =>
        rcases h with ⟨v, hv, hle⟩ | htrim
        · refine ⟨.notFuture, ?_⟩
          have hcond : (v == 0 || decide (v ≤ now)) = true := by
            simp [hle]
          simp [hid, htext, hv, hcond]
        · exact absurd htext (by simp [htrim])
  rcases hval with ⟨e, he⟩
  exact ⟨⟨e, by simp [Storage.saveReminder, he]⟩,
    by simp [Storage.saveReminder, he, resultStore]⟩

/-- Witness for `saveReminder_rejects`: a record scheduled at 5 saved at
now = 10 into a one-record store. -/
theorem saveReminder_rejects_witness :
    ((∃ v, toNumber (JVal.num 5) = some v ∧ v ≤ 10) ∨
      jsTrim "x".data = []) ∧
    ((∃ e, Storage.saveReminder 10
        ⟨"a".data, "x".data, .num 5, .num 1, some "active".data, []⟩
        [⟨"b".data, "y".data, .num 99, .num 1, some "active".data, []⟩] =
      .error e) ∧
    resultStore (Storage.saveReminder 10
        ⟨"a".data, "x".data, .num 5, .num 1, some "active".data, []⟩
        [⟨"b".data, "y".data, .num 99, .num 1, some "active".data, []⟩])
      [⟨"b".data, "y".data, .num 99, .num 1, some "active".data, []⟩] =
      [⟨"b".data, "y".data, .num 99, .num 1, some "active".data, []⟩]) :=
  ⟨Or.inl ⟨5, by decide, by decide⟩,
    saveReminder_rejects 10
      ⟨"a".data, "x".data, .num 5, .num 1, some "active".data, []⟩
      [⟨"b".data, "y".data, .num 99, .num 1, some "active".data, []⟩]
      (Or.inl ⟨5, by decide, by decide⟩)⟩

/-- C7: for a record passing validation, `save` succeeds and `getOne` on
its id returns exactly the normalized input: id, text and the
pass-through fields unchanged, scheduledTime and a truthy numeric
createdAt coerced to numbers, and a missing (or kept non-empty) status
defaulted to `active`. -/
theorem save_getOne_roundtrip (now : Int) (r : Reminder)
    (store : List Reminder)
    (h : Storage.validateReminder now r = .ok ()) :
    ∃ s2, Storage.saveReminder now r store = .ok s2 ∧
      Storage.getReminder r.id s2 = some (Storage.normalizeReminder now r) ∧
      (Storage.normalizeReminder now r).id = r.id ∧
      (Storage.normalizeReminder now r).text = r.text ∧
      (Storage.normalizeReminder now r).extra = r.extra ∧
      (∀ v, toNumber r.scheduledTime = some v →
        (Storage.normalizeReminder now r).scheduledTime = .num v) ∧
      (∀ v, toNumber r.createdAt = some v → v ≠ 0 →
        (Storage.normalizeReminder now r).createdAt = .num v) ∧
      (r.status = none →
        (Storage.normalizeReminder now r).status = some "active".data) ∧
      (∀ s, r.status = some s → s.isEmpty = false →
        (Storage.normalizeReminder now r).status = some s) := by
  rcases saveReminder_ok now r store h with ⟨s2, h1, h2⟩
  refine ⟨s2, h1, h2, rfl, rfl, rfl, ?_, ?_, ?_, ?_⟩
  · intro v hv
    simp [Storage.normalizeReminder, hv]
  · intro v hv hne
    simp [Storage.normalizeReminder, hv, hne]
  · intro hs
    simp [Storage.normalizeReminder, hs]
  · intro s hs hne
    simp [Storage.normalizeReminder, hs, hne]

/-- Witness for `save_getOne_roundtrip`: a fresh valid record saved into
an empty store at now = 10. -/
theorem save_getOne_roundtrip_witness :
    Storage.validateReminder 10
      ⟨"a".data, "x".data, .num 100, .num 7, none, []⟩ = .ok () ∧
    (∃ s2, Storage.saveReminder 10
        ⟨"a".data, "x".data, .num 100, .num 7, none, []⟩ [] = .ok s2 ∧
      Storage.getReminder "a".data s2 =
        some (Storage.normalizeReminder 10
          ⟨"a".data, "x".data, .num 100, .num 7, none, []⟩) ∧
      (Storage.normalizeReminder 10
        ⟨"a".data, "x".data, .num 100, .num 7, none, []⟩).id = "a".data ∧
      (Storage.normalizeReminder 10
        ⟨"a".data, "x".data, .num 100, .num 7, none, []⟩).text = "x".data ∧
      (Storage.normalizeReminder 10
        ⟨"a".data, "x".data, .num 100, .num 7, none, []⟩).extra = [] ∧
      (∀ v, toNumber (JVal.num 100) = some v →
        (Storage.normalizeReminder 10
          ⟨"a".data, "x".data, .num 100, .num 7, none, []⟩).scheduledTime =
          .num v) ∧
      (∀ v, toNumber (JVal.num 7) = some v → v ≠ 0 →
        (Storage.normalizeReminder 10
          ⟨"a".data, "x".data, .num 100, .num 7, none, []⟩).createdAt =
          .num v) ∧
      ((none : Option Str) = none →
        (Storage.normalizeReminder 10
          ⟨"a".data, "x".data, .num 100, .num 7, none, []⟩).status =
          some "active".data) ∧
      (∀ s, (none : Option Str) = some s → s.isEmpty = false →
        (Storage.normalizeReminder 10
          ⟨"a".data, "x".data, .num 100, .num 7, none, []⟩).status = some s)) :=
  ⟨by decide, save_getOne_roundtrip 10
    ⟨"a".data, "x".data, .num 100, .num 7, none, []⟩ [] (by decide)⟩

/-- C8: a store with at most one record per id keeps that invariant
through a `save` upsert, a `remove`, and a `setStatus` (errors leave the
old store, which still satisfies it). -/
theorem storeOps_preserve_uniqueIds (now : Int) (r : Reminder)
    (id status : Str) (store : List Reminder) (hu : uniqueIds store) :
    uniqueIds (resultStore (Storage.saveReminder now r store) store) ∧
    uniqueIds (Storage.deleteReminder id store) ∧
    uniqueIds (resultStore (Storage.updateReminderStatus now id status store)
      store) := by
  refine ⟨?_, uniqueIds_delete hu, ?_⟩
  · cases h : Storage.saveReminder now r store with
    | ok s2 => simpa [resultStore] using uniqueIds_save hu h
    | error e => simpa [resultStore] using hu
  · cases h : Storage.updateReminderStatus now id status store with
    | ok s2 =>
      rcases update_ok_cases h with rfl | ⟨r2, hs⟩
      · simpa [resultStore] using hu
      · simpa [resultStore] using uniqueIds_save hu hs
    | error e => simpa [resultStore] using hu

/-- Witness for `storeOps_preserve_uniqueIds`: a two-record store with
distinct ids, exercising save of a replacement, delete and setStatus. -/
theorem storeOps_preserve_uniqueIds_witness :
    uniqueIds [⟨"a".data, "x".data, .num 100, .num 1, some "active".data, []⟩,
      ⟨"b".data, "y".data, .num 200, .num 1, some "active".data, []⟩] ∧
    (uniqueIds (resultStore (Storage.saveReminder 10
        ⟨"a".data, "z".data, .num 300, .num 1, some "active".data, []⟩
        [⟨"a".data, "x".data, .num 100, .num 1, some "active".data, []⟩,
          ⟨"b".data, "y".data, .num 200, .num 1, some "active".data, []⟩])
      [⟨"a".data, "x".data, .num 100, .num 1, some "active".data, []⟩,
        ⟨"b".data, "y".data, .num 200, .num 1, some "active".data, []⟩]) ∧
    uniqueIds (Storage.deleteReminder "b".data
      [⟨"a".data, "x".data, .num 100, .num 1, some "active".data, []⟩,
        ⟨"b".data, "y".data, .num 200, .num 1, some "active".data, []⟩]) ∧
    uniqueIds (resultStore (Storage.updateReminderStatus 10 "b".data
        "dismissed".data
        [⟨"a".data, "x".data, .num 100, .num 1, some "active".data, []⟩,
          ⟨"b".data, "y".data, .num 200, .num 1, some "active".data, []⟩])
      [⟨"a".data, "x".data, .num 100, .num 1, some "active".data, []⟩,
        ⟨"b".data, "y".data, .num 200, .num 1, some "active".data, []⟩])) :=
  ⟨by decide, storeOps_preserve_uniqueIds 10
    ⟨"a".data, "z".data, .num 300, .num 1, some "active".data, []⟩
    "b".data "dismissed".data
    [⟨"a".data, "x".data, .num 100, .num 1, some "active".data, []⟩,
      ⟨"b".data, "y".data, .num 200, .num 1, some "active".data, []⟩]
    (by decide)⟩

/-- C9: the background service worker's own `updateReminderStatus`
writes the record at the first matching index back with only the status
field replaced — no re-validation, every other field and record
untouched, total (never raises), regardless of the record's
scheduledTime. -/
theorem bgUpdateStatus_direct (id status : Str) (store : List Reminder)
    (i : Nat) (r : Reminder)
    (hidx : findIndexJS (fun x => x.id == id) store = some i)
    (hget : store.get? i = some r) :
    Background.updateReminderStatus id status store =
      store.set i { r with status := some status } ∧
    (Background.updateReminderStatus id status store).length = store.length ∧
    (∀ j, j ≠ i →
      (Background.updateReminderStatus id status store).get? j =
        store.get? j) ∧
    ({ r with status := some status } : Reminder).id = r.id ∧
    ({ r with status := some status } : Reminder).text = r.text ∧
    ({ r with status := some status } : Reminder).scheduledTime =
      r.scheduledTime ∧
    ({ r with status := some status } : Reminder).createdAt = r.createdAt ∧
    ({ r with status := some status } : Reminder).extra = r.extra := by
  rcases findIndexJS_find? hidx with ⟨x, hg, hpx, hfind⟩
  rw [hget] at hg
  injection hg with hg
  subst hg
  have hmain : Background.updateReminderStatus id status store =
      store.set i { r with status := some status } := by
    simp [Background.updateReminderStatus, hfind, hidx]
  refine ⟨hmain, ?_, ?_, rfl, rfl, rfl, rfl, rfl⟩
  · rw [hmain, List.length_set]
  · intro j hj
    rw [hmain, List.get?_set_ne _ _ (Ne.symm hj)]

/-- Witness for `bgUpdateStatus_direct`: marking a record completed even
though its scheduledTime (5) is already in the past. -/
theorem bgUpdateStatus_direct_witness :
    findIndexJS (fun x : Reminder => x.id == "a".data)
      [⟨"a".data, "x".data, .num 5, .num 1, some "active".data, []⟩] =
      some 0 ∧
    (Background.updateReminderStatus "a".data "completed".data
        [⟨"a".data, "x".data, .num 5, .num 1, some "active".data, []⟩] =
      [⟨"a".data, "x".data, .num 5, .num 1, some "active".data, []⟩].set 0
        ⟨"a".data, "x".data, .num 5, .num 1, some "completed".data, []⟩ ∧
    (Background.updateReminderStatus "a".data "completed".data
        [⟨"a".data, "x".data, .num 5, .num 1, some "active".data, []⟩]).length =
      1 ∧
    (∀ j, j ≠ 0 →
      (Background.updateReminderStatus "a".data "completed".data
          [⟨"a".data, "x".data, .num 5, .num 1, some "active".data, []⟩]).get? j =
        [⟨"a".data, "x".data, .num 5, .num 1, some "active".data, []⟩].get? j) ∧
    (⟨"a".data, "x".data, .num 5, .num 1, some "completed".data, []⟩ :
      Reminder).id = "a".data ∧
    (⟨"a".data, "x".data, .num 5, .num 1, some "completed".data, []⟩ :
      Reminder).text = "x".data ∧
    (⟨"a".data, "x".data, .num 5, .num 1, some "completed".data, []⟩ :
      Reminder).scheduledTime = .num 5 ∧
    (⟨"a".data, "x".data, .num 5, .num 1, some "completed".data, []⟩ :
      Reminder).createdAt = .num 1 ∧
    (⟨"a".data, "x".data, .num 5, .num 1, some "completed".data, []⟩ :
      Reminder).extra = []) :=
  ⟨by decide, bgUpdateStatus_direct "a".data "completed".data
    [⟨"a".data, "x".data, .num 5, .num 1, some "active".data, []⟩] 0
    ⟨"a".data, "x".data, .num 5, .num 1, some "active".data, []⟩
    (by decide) (by decide)⟩

/-- C5 counterexample: the fired key `"reminder-z-1200"` matches no id
exactly, and *exactly one* `active` record (`"b"`, scheduled 1500) is
within 1000 ms of the encoded time 1200 — yet the handler matches
nothing it can act on, because the proximity fallback ignores status and
returns the earlier `completed` record (`"a"`, scheduled 1000), so no
notification is shown and the store is unchanged. -/
theorem alarmFire_fallback_counterexample :
    Background.parseAlarmName "reminder-z-1200".data =
      some ⟨"-z".data, 1200⟩ ∧
    (([⟨"a".data, "x".data, .num 1000, .num 1, some "completed".data, []⟩,
      ⟨"b".data, "y".data, .num 1500, .num 1, some "active".data, []⟩] :
        List Reminder).all
        (fun r => r.id != "-z".data)) = true ∧
    (([⟨"a".data, "x".data, .num 1000, .num 1, some "completed".data, []⟩,
      ⟨"b".data, "y".data, .num 1500, .num 1, some "active".data, []⟩] :
        List Reminder).filter
        (fun r => r.status == some "active".data &&
          Background.withinTolerance r 1200)).length = 1 ∧
    Background.handleAlarm "reminder-z-1200".data
        [⟨"a".data, "x".data, .num 1000, .num 1, some "completed".data, []⟩,
          ⟨"b".data, "y".data, .num 1500, .num 1, some "active".data, []⟩] =
      (none,
        [⟨"a".data, "x".data, .num 1000, .num 1, some "completed".data, []⟩,
          ⟨"b".data, "y".data, .num 1500, .num 1, some "active".data, []⟩]) := by
  refine ⟨by decide, by decide, by decide, by decide⟩

/-- C5 (amended): when the fired key's parsed id matches no record
exactly, the handler matches the *first record in collection order*
whose scheduledTime is within 1000 ms of the encoded time, regardless of
status; when that first within-tolerance record is the active one (and
ids are unique), it is notified and transitioned to `completed`. -/
theorem alarmFire_fallback_first (name : Str) (store : List Reminder)
    (p : AlarmParse) (i : Nat) (r : Reminder)
    (hp : Background.parseAlarmName name = some p)
    (hnoid : ∀ x ∈ store, (x.id == p.reminderId) = false)
    (hidx : findIndexJS
      (fun x => Background.withinTolerance x p.scheduledTime) store = some i)
    (hget : store.get? i = some r)
    (hact : r.status = some "active".data)
    (hu : uniqueIds store) :
    Background.handleAlarm name store =
      (some r, store.set i { r with status := some "completed".data }) := by
  have hchecks := parseAlarmName_checks hp
  have hfind1 : store.find? (fun x => x.id == p.reminderId) = none :=
    List.find?_eq_none.mpr (fun x hx => by simp [hnoid x hx])
  rcases findIndexJS_find? hidx with ⟨x, hg, hpx, hfind2⟩
  rw [hget] at hg
  injection hg with hg
  subst hg
  have hne : store.isEmpty = false := by
    cases store with
    | nil => simp [List.get?] at hget
    | cons a s => rfl
  have hfr : Background.findReminder store p.reminderId p.scheduledTime =
      some r := by
    simp [Background.findReminder, hfind1, hfind2]
  rcases nodup_find_self hu hget with ⟨hfself, hiself⟩
  have hnact : (r.status != some "active".data) = false := by
    rw [hact]; decide
  simp [Background.handleAlarm, hchecks, hp, hne, hfr, hnact,
    Background.updateReminderStatus, hfself, hiself]

/-- Witness for `alarmFire_fallback_first`: the key `"reminder-z-1200"`
with a far record first and the unique within-tolerance active record
(`"b"`, scheduled 1500) second. -/
theorem alarmFire_fallback_first_witness :
    Background.parseAlarmName "reminder-z-1200".data =
      some ⟨"-z".data, 1200⟩ ∧
    (∀ x ∈ [⟨"c".data, "w".data, .num 5000, .num 1, some "active".data, []⟩,
        ⟨"b".data, "y".data, .num 1500, .num 1, some "active".data, []⟩],
      (Reminder.id x == "-z".data) = false) ∧
    findIndexJS (fun x => Background.withinTolerance x 1200)
      [⟨"c".data, "w".data, .num 5000, .num 1, some "active".data, []⟩,
        ⟨"b".data, "y".data, .num 1500, .num 1, some "active".data, []⟩] =
      some 1 ∧
    uniqueIds [⟨"c".data, "w".data, .num 5000, .num 1, some "active".data, []⟩,
      ⟨"b".data, "y".data, .num 1500, .num 1, some "active".data, []⟩] ∧
    Background.handleAlarm "reminder-z-1200".data
        [⟨"c".data, "w".data, .num 5000, .num 1, some "active".data, []⟩,
          ⟨"b".data, "y".data, .num 1500, .num 1, some "active".data, []⟩] =
      (some ⟨"b".data, "y".data, .num 1500, .num 1, some "active".data, []⟩,
        [⟨"c".data, "w".data, .num 5000, .num 1, some "active".data, []⟩,
          ⟨"b".data, "y".data, .num 1500, .num 1, some "completed".data, []⟩]) :=
  ⟨by decide, by decide, by decide, by decide,
    alarmFire_fallback_first "reminder-z-1200".data
      [⟨"c".data, "w".data, .num 5000, .num 1, some "active".data, []⟩,
        ⟨"b".data, "y".data, .num 1500, .num 1, some "active".data, []⟩]
      ⟨"-z".data, 1200⟩ 1
      ⟨"b".data, "y".data, .num 1500, .num 1, some "active".data, []⟩
      (by decide) (by decide) (by decide) (by decide) (by decide) (by decide)⟩
